import Mathlib

/-!
# Verification of the FZ-theory formula toolkit

Shallow embedding of `src/core.py` (class `FZVerifier`) and proofs of the
specification claims about it.

Modelling conventions:
* Python floats and `Decimal` values are modelled as exact real numbers (`ℝ`);
  the arithmetic the source performs is mirrored operation for operation on `ℝ`.
* A fallible Python function raising `ValueError` (the specification calls this a
  *domain error*) or `decimal.InvalidOperation` is modelled as returning
  `Except Err`.
* The process-wide decimal context (`decimal.getcontext()`) is modelled by
  explicit state passing: the stateful function takes the ambient context and
  returns the ambient context left in place after the call.
* Where a claim is about IEEE-754 binary64 rounding ("returns exactly 1.0"),
  the set of binary64-representable reals is axiomatised structurally as
  `DoubleRep`, and the claim is stated as: the computed exact value rounds to
  the stated double, i.e. that double is its unique nearest representable.
-/

namespace FZVerifier

/-- Errors the toolkit can raise: `valueError` models Python `ValueError`
(the domain error of the specification); `invalidOperation` models
`decimal.InvalidOperation` raised by the big-decimal power primitive. -/
inductive Err where
  | valueError (msg : String)
  | invalidOperation
deriving DecidableEq, Repr

/-- `np.expm1 x = exp x - 1`, modelled as the exact real function. -/
noncomputable def expm1 (x : ℝ) : ℝ := Real.exp x - 1

/-- Embedding of `FZVerifier.manifestation_probability(p, t)`:
reject `p <= 0 or t <= 0`, set `tp = t * p`, compute `prob = -expm1(-tp)`,
and clamp with `min(1.0, max(0.0, prob))`. -/
noncomputable def manifestation_probability (p t : ℝ) : Except Err ℝ :=
  if p ≤ 0 ∨ t ≤ 0 then .error (.valueError "p and t must be positive")
  else
    let tp := t * p
    let prob := -expm1 (-tp)
    .ok (min 1 (max 0 prob))

/-- The module-level constant `DEFAULT_PRECISION = 100` of `src/core.py`. -/
def DEFAULT_PRECISION : ℕ := 100

/-- The ambient decimal arithmetic context, `decimal.getcontext()`:
its only field relevant to the source is the precision `prec`. -/
structure DecimalContext where
  prec : ℕ
deriving DecidableEq, Repr

/-- The ambient context after importing the module, which executes
`getcontext().prec = DEFAULT_PRECISION` at top level. -/
def initialContext : DecimalContext := ⟨DEFAULT_PRECISION⟩

open Classical in
/-- Python `Decimal` power `x  y`: raises `InvalidOperation` for a negative
base with a non-integral exponent; otherwise modelled as the exact real power
(`Real.rpow`), idealising the round-to-context-precision of `decimal`. -/
noncomputable def decimalPow (x y : ℝ) : Except Err ℝ :=
  if x < 0 ∧ ¬ ∃ n : ℤ, y = (n : ℝ) then .error .invalidOperation
  else .ok (x ^ y)

/-- Embedding of `FZVerifier.manifestation_probability_decimal(p_str, t_str, precision)`.
`p` and `t` are the exact values of the decimal literals `p_str`, `t_str`.
The source first executes `getcontext().prec = precision` (mutating the ambient
context), then validates `p <= 0 or t <= 0`, then returns
`Decimal(1) - (Decimal(1) - p)  t`.  The ambient context is threaded
explicitly; note the source never restores it, so the returned context is
`⟨precision⟩` on every path. -/
noncomputable def manifestation_probability_decimal
    (p t : ℝ) (precision : ℕ) (ctx : DecimalContext) :
    Except Err ℝ × DecimalContext :=
  let ctx' : DecimalContext := ⟨precision⟩
  if p ≤ 0 ∨ t ≤ 0 then (.error (.valueError "p and t must be positive"), ctx')
  else
    match decimalPow (1 - p) t with
    | .error e => (.error e, ctx')
    | .ok w => (.ok (1 - w), ctx')

/-- `manifestation_probability_decimal` called with `precision` omitted: the
source signature declares `precision: int = 100`. -/
noncomputable def manifestation_probability_decimal_defaulted
    (p t : ℝ) (ctx : DecimalContext) : Except Err ℝ × DecimalContext :=
  manifestation_probability_decimal p t DEFAULT_PRECISION ctx

/-- Embedding of `FZVerifier.critical_point_for_probability(target_p)`:
reject `target_p` outside the open interval `(0, 1)`, return `-log(1 - target_p)`. -/
noncomputable def critical_point_for_probability (target_p : ℝ) : Except Err ℝ :=
  if ¬ (0 < target_p ∧ target_p < 1) then .error (.valueError "target_p must be in (0, 1)")
  else .ok (-Real.log (1 - target_p))

/-- Embedding of `FZVerifier.nothing_weight(phi, scenario)`: reject `phi <= 0`,
then select `rho = phi  exponent` by scenario tag (`-0.5`, `-1.0`, `-1.5`),
rejecting unknown tags, and return `phi * rho`. -/
noncomputable def nothing_weight (phi : ℝ) (scenario : String) : Except Err ℝ :=
  if phi ≤ 0 then .error (.valueError "phi must be positive")
  else
    (if scenario = "growth" then Except.ok (phi ^ (-0.5 : ℝ))
     else if scenario = "balanced" then Except.ok (phi ^ (-1.0 : ℝ))
     else if scenario = "decay" then Except.ok (phi ^ (-1.5 : ℝ))
     else Except.error (Err.valueError "Invalid scenario: use growth, balanced, or decay")).map
      (fun rho => phi * rho)

/-- Embedding of `FZVerifier.asymmetry(phi)`: reject `phi <= 0`,
return `tanh(log(phi))`. -/
noncomputable def asymmetry (phi : ℝ) : Except Err ℝ :=
  if phi ≤ 0 then .error (.valueError "phi must be positive")
  else .ok (Real.tanh (Real.log phi))

/-- Embedding of `FZVerifier.structure_density(t, k, rho0)`: reject `k <= 0`,
return `rho0 * exp(k * t)`.  (In the source `k` defaults to `0.01` and `rho0`
to `1.0`; the claims quantify over them explicitly.) -/
noncomputable def structure_density (t k rho0 : ℝ) : Except Err ℝ :=
  if k ≤ 0 then .error (.valueError "k must be positive")
  else .ok (rho0 * Real.exp (k * t))

/-- A real number exactly representable as an IEEE-754 binary64 value: an
integer significand of magnitude below `2^53` scaled by a power of two within
the binary64 exponent range (subnormals included). -/
def DoubleRep (x : ℝ) : Prop :=
  ∃ m e : ℤ, |m| < 2 ^ 53 ∧ -1074 ≤ e ∧ e ≤ 971 ∧ x = (m : ℝ) * 2 ^ e

/-! ### Helper lemmas -/

lemma tanh_lt_one (x : ℝ) : Real.tanh x < 1 := by
  rw [Real.tanh_eq_sinh_div_cosh, div_lt_one (Real.cosh_pos x)]
  have h : Real.cosh x - Real.sinh x = Real.exp (-x) := by
    rw [Real.cosh_eq, Real.sinh_eq]; ring
  have := Real.exp_pos (-x)
  linarith

lemma neg_one_lt_tanh (x : ℝ) : -1 < Real.tanh x := by
  rw [Real.tanh_eq_sinh_div_cosh, lt_div_iff₀ (Real.cosh_pos x)]
  have h : Real.cosh x + Real.sinh x = Real.exp x := by
    rw [Real.cosh_eq, Real.sinh_eq]; ring
  have := Real.exp_pos x
  linarith

/-! ### Claim theorems -/

/-- C2. For every `p > 0` and `t > 0`, `manifestation_probability(p, t)` returns
`-expm1(-(t*p))` clamped into `[0.0, 1.0]`, and the result always lies in `[0, 1]`. -/
theorem C2_stable_clamped (p t : ℝ) (hp : 0 < p) (ht : 0 < t) :
    manifestation_probability p t = .ok (min 1 (max 0 (-expm1 (-(t * p))))) ∧
    ∀ v, manifestation_probability p t = .ok v → 0 ≤ v ∧ v ≤ 1 := by
  have hcond : ¬ (p ≤ 0 ∨ t ≤ 0) := by push_neg; exact ⟨hp, ht⟩
  refine ⟨by rw [manifestation_probability, if_neg hcond], ?_⟩
  intro v hv
  rw [manifestation_probability, if_neg hcond] at hv
  simp only [Except.ok.injEq] at hv
  subst hv
  exact ⟨le_min zero_le_one (le_max_left _ _), min_le_left _ _⟩

/-- Witness for C2 at `p = 1`, `t = 1`. -/
theorem C2_stable_clamped_witness :
    manifestation_probability 1 1 = .ok (min 1 (max 0 (-expm1 (-((1:ℝ) * 1))))) ∧
    ∀ v, manifestation_probability 1 1 = .ok v → 0 ≤ v ∧ v ≤ 1 :=
  C2_stable_clamped 1 1 (by norm_num) (by norm_num)

/-- C9. `manifestation_probability` accepts every `p > 1` without raising: for
`p > 1`, `t > 0` it returns the clamped value, which still lies in `[0, 1]`. -/
theorem C9_large_p_accepted (p t : ℝ) (hp : 1 < p) (ht : 0 < t) :
    manifestation_probability p t = .ok (min 1 (max 0 (-expm1 (-(t * p))))) ∧
    ∀ v, manifestation_probability p t = .ok v → 0 ≤ v ∧ v ≤ 1 :=
  C2_stable_clamped p t (lt_trans one_pos hp) ht

/-- Witness for C9 at `p = 2`, `t = 1`. -/
theorem C9_large_p_accepted_witness :
    manifestation_probability 2 1 = .ok (min 1 (max 0 (-expm1 (-((1:ℝ) * 2))))) ∧
    ∀ v, manifestation_probability 2 1 = .ok v → 0 ≤ v ∧ v ≤ 1 :=
  C9_large_p_accepted 2 1 (by norm_num) (by norm_num)

/-- C10. `structure_density` validates only `k`: for `k > 0` it accepts every `t`
(including `t ≤ 0`) and every `rho0` (including zero and negative values), returning
`rho0 * exp(k * t)`, which is negative when `rho0 < 0` and zero when `rho0 = 0`. -/
theorem C10_structure_density_only_k (t k rho0 : ℝ) (hk : 0 < k) :
    structure_density t k rho0 = .ok (rho0 * Real.exp (k * t)) ∧
    (rho0 < 0 → rho0 * Real.exp (k * t) < 0) ∧
    (rho0 = 0 → rho0 * Real.exp (k * t) = 0) := by
  refine ⟨by rw [structure_density, if_neg (not_le.mpr hk)], ?_, ?_⟩
  · intro h; exact mul_neg_of_neg_of_pos h (Real.exp_pos _)
  · intro h; rw [h, zero_mul]

/-- Witness for C10 at `t = -5`, `k = 1`, `rho0 = -2`. -/
theorem C10_structure_density_only_k_witness :
    structure_density (-5) 1 (-2) = .ok ((-2) * Real.exp (1 * (-5))) ∧
    ((-2:ℝ) < 0 → (-2) * Real.exp (1 * (-5)) < 0) ∧
    ((-2:ℝ) = 0 → (-2) * Real.exp (1 * (-5)) = 0) :=
  C10_structure_density_only_k (-5) 1 (-2) (by norm_num)

/-- C5. For every `phi > 0`, `nothing_weight(phi, "balanced")` returns exactly
the constant `1.0`: the scale invariance `phi * phi^(-1.0) = 1` holds exactly. -/
theorem C5_balanced_scale_invariant (phi : ℝ) (hphi : 0 < phi) :
    nothing_weight phi "balanced" = .ok 1 := by
  have hrho : phi ^ (-1.0 : ℝ) = phi⁻¹ := by
    rw [show (-1.0 : ℝ) = -1 by norm_num, Real.rpow_neg_one]
  rw [nothing_weight, if_neg (not_le.mpr hphi), if_neg (by decide), if_pos rfl, hrho]
  show Except.ok (phi * phi⁻¹) = Except.ok 1
  rw [mul_inv_cancel₀ (ne_of_gt hphi)]

/-- Witness for C5 at `phi = 2`. -/
theorem C5_balanced_scale_invariant_witness :
    nothing_weight 2 "balanced" = .ok 1 :=
  C5_balanced_scale_invariant 2 (by norm_num)

/-- C6. For every `phi > 0`, `asymmetry(phi)` computes `tanh(ln(phi))`,
`asymmetry(1.0)` returns exactly `0.0`, and every returned value lies strictly
inside `(-1, 1)`. -/
theorem C6_asymmetry_range (phi : ℝ) (hphi : 0 < phi) :
    asymmetry phi = .ok (Real.tanh (Real.log phi)) ∧
    (∀ v, asymmetry phi = .ok v → -1 < v ∧ v < 1) ∧
    asymmetry 1 = .ok 0 := by
  have hcond : ¬ phi ≤ 0 := not_le.mpr hphi
  refine ⟨by rw [asymmetry, if_neg hcond], ?_, ?_⟩
  · intro v hv
    rw [asymmetry, if_neg hcond] at hv
    simp only [Except.ok.injEq] at hv
    subst hv
    exact ⟨neg_one_lt_tanh _, tanh_lt_one _⟩
  · rw [asymmetry, if_neg (by norm_num), Real.log_one, Real.tanh_zero]

/-- C1. Round-trip inversion: for every `target_probability` strictly inside
`(0, 1)` and every `p > 0`, `t > 0` whose product equals
`critical_point_for_probability(target_probability) = -ln(1 - target_probability)`,
the value `manifestation_probability(p, t)` reproduces the target within `1e-14`
absolute error (in the exact-real model the error is zero). -/
theorem C1_round_trip (q p t : ℝ) (hq0 : 0 < q) (hq1 : q < 1)
    (hp : 0 < p) (ht : 0 < t)
    (hcrit : critical_point_for_probability q = .ok (t * p)) :
    ∃ v, manifestation_probability p t = .ok v ∧ |v - q| ≤ 1e-14 := by
  rw [critical_point_for_probability, if_neg (not_not.mpr ⟨hq0, hq1⟩)] at hcrit
  simp only [Except.ok.injEq] at hcrit
  have h1q : 0 < 1 - q := by linarith
  have hval : -expm1 (-(t * p)) = q := by
    rw [expm1, ← hcrit, neg_neg, Real.exp_log h1q]
    ring
  refine ⟨q, ?_, by simp only [sub_self, abs_zero]; norm_num⟩
  rw [manifestation_probability, if_neg (by push_neg; exact ⟨hp, ht⟩)]
  simp only [hval, Except.ok.injEq]
  rw [max_eq_right hq0.le, min_eq_right hq1.le]

/-- Witness for C1 at `q = 1/2`, `p = 1`, `t = log 2`. -/
theorem C1_round_trip_witness :
    ∃ v, manifestation_probability 1 (Real.log 2) = .ok v ∧ |v - 1/2| ≤ 1e-14 :=
  C1_round_trip (1/2) 1 (Real.log 2) (by norm_num) (by norm_num) (by norm_num)
    (Real.log_pos (by norm_num))
    (by
      rw [critical_point_for_probability, if_neg (not_not.mpr (by norm_num))]
      rw [show (1:ℝ) - 1/2 = 2⁻¹ by norm_num, Real.log_inv, neg_neg, mul_one])

/-- C3. Code-bug evidence: calling `manifestation_probability_decimal` with
`precision = 7` from the initial ambient context (`prec = 100`) leaves the ambient
context at `prec = 7` after the call — it is not restored, contradicting the
specified scoped-context behaviour. -/
theorem C3_precision_not_restored :
    (manifestation_probability_decimal (1/2) 2 7 initialContext).2 = ⟨7⟩ ∧
    initialContext.prec = 100 ∧ (7 : ℕ) ≠ 100 := by
  refine ⟨?_, rfl, by decide⟩
  rw [manifestation_probability_decimal]
  rw [if_neg (by norm_num)]
  rw [decimalPow, if_neg (by
    rintro ⟨h1, -⟩
    norm_num at h1)]

/-- Witness for C6 at `phi = 2`. -/
theorem C6_asymmetry_range_witness :
    asymmetry 2 = .ok (Real.tanh (Real.log 2)) ∧
    (∀ v, asymmetry 2 = .ok v → -1 < v ∧ v < 1) ∧
    asymmetry 1 = .ok 0 :=
  C6_asymmetry_range 2 (by norm_num)

lemma half_not_int : ¬ ∃ n : ℤ, ((1:ℝ)/2) = (n : ℝ) := by
  rintro ⟨n, hn⟩
  have h : (2:ℝ) * n = 1 := by rw [← hn]; norm_num
  have h2 : (2 * n : ℤ) = 1 := by exact_mod_cast h
  omega

/-- C4 counterexample. The claim fails as stated: at the positive literals
`p = 3`, `t = 1/2` the source raises `decimal.InvalidOperation` (negative base
`1 - p = -2` under a non-integral exponent) instead of returning `1 - (1-p)^t`. -/
theorem C4_counterexample :
    (0:ℝ) < 3 ∧ (0:ℝ) < 1/2 ∧
    (manifestation_probability_decimal 3 (1/2) 100 initialContext).1 =
      .error .invalidOperation := by
  refine ⟨by norm_num, by norm_num, ?_⟩
  rw [manifestation_probability_decimal, if_neg (by norm_num)]
  rw [decimalPow, if_pos ⟨by norm_num, half_not_int⟩]

/-- C4 (amended). For positive parsed decimal values with `p ≤ 1` and any
precision, `manifestation_probability_decimal` returns `1 - (1 - p)^t` computed
with the big-decimal power primitive (idealised as the exact real power), and the
`precision` parameter defaults to `100 ≥ 50` when omitted. -/
theorem C4_decimal_exact_formula (p t : ℝ) (prec : ℕ) (ctx : DecimalContext)
    (hp : 0 < p) (hp1 : p ≤ 1) (ht : 0 < t) :
    (manifestation_probability_decimal p t prec ctx).1 = .ok (1 - (1 - p) ^ t) ∧
    manifestation_probability_decimal_defaulted p t ctx =
      manifestation_probability_decimal p t 100 ctx ∧
    50 ≤ DEFAULT_PRECISION := by
  refine ⟨?_, rfl, by norm_num [DEFAULT_PRECISION]⟩
  rw [manifestation_probability_decimal, if_neg (by push_neg; exact ⟨hp, ht⟩)]
  rw [decimalPow, if_neg (by rintro ⟨h1, -⟩; linarith)]

/-- Witness for C4 (amended) at `p = 1/2`, `t = 2`, default precision. -/
theorem C4_decimal_exact_formula_witness :
    (manifestation_probability_decimal (1/2) 2 100 initialContext).1 =
      .ok (1 - (1 - 1/2) ^ (2:ℝ)) ∧
    manifestation_probability_decimal_defaulted (1/2) 2 initialContext =
      manifestation_probability_decimal (1/2) 2 100 initialContext ∧
    50 ≤ DEFAULT_PRECISION :=
  C4_decimal_exact_formula (1/2) 2 100 initialContext (by norm_num) (by norm_num)
    (by norm_num)

/-- `r` is a raised domain error (Python `ValueError`). -/
def isDomainError {α : Type} (r : Except Err α) : Prop :=
  ∃ msg, r = .error (.valueError msg)

@[simp] lemma isDomainError_ok {α : Type} (v : α) :
    isDomainError (Except.ok v) ↔ False := by
  simp [isDomainError]

@[simp] lemma isDomainError_valueError {α : Type} (msg : String) :
    isDomainError (Except.error (Err.valueError msg) : Except Err α) ↔ True := by
  simp only [iff_true]
  exact ⟨msg, rfl⟩

@[simp] lemma isDomainError_invalidOperation {α : Type} :
    isDomainError (Except.error Err.invalidOperation : Except Err α) ↔ False := by
  simp [isDomainError]

/-- C7 counterexample. The claim fails as stated: at `p = 2`, `t = 1/2` —
inputs violating no positivity constraint — `manifestation_probability_decimal`
does raise (`decimal.InvalidOperation` from the power primitive) instead of
returning a value. -/
theorem C7_counterexample :
    ¬ ((2:ℝ) ≤ 0 ∨ ((1:ℝ)/2) ≤ 0) ∧
    ¬ ∃ v, (manifestation_probability_decimal 2 (1/2) DEFAULT_PRECISION
        initialContext).1 = .ok v := by
  refine ⟨by norm_num, ?_⟩
  rw [manifestation_probability_decimal, if_neg (by norm_num),
    decimalPow, if_pos ⟨by norm_num, half_not_int⟩]
  simp

/-- C7 (amended). Each operation raises a domain error (`ValueError`) exactly
when its inputs violate the stated positivity and range constraints, and on all
other inputs returns a value — except that `manifestation_probability_decimal`
additionally raises `InvalidOperation` (not a domain error) exactly when its
power primitive receives a negative base (`p > 1`) with a non-integral exponent. -/
theorem C7_error_conditions (p t q phi k td rho0 : ℝ) (prec : ℕ)
    (ctx : DecimalContext) (scenario : String) :
    (isDomainError (manifestation_probability p t) ↔ p ≤ 0 ∨ t ≤ 0) ∧
    ((∃ v, manifestation_probability p t = .ok v) ↔ ¬ (p ≤ 0 ∨ t ≤ 0)) ∧
    (isDomainError (manifestation_probability_decimal p t prec ctx).1 ↔
      p ≤ 0 ∨ t ≤ 0) ∧
    ((manifestation_probability_decimal p t prec ctx).1 =
        .error .invalidOperation ↔
      ¬ (p ≤ 0 ∨ t ≤ 0) ∧ (1 - p < 0 ∧ ¬ ∃ n : ℤ, t = (n : ℝ))) ∧
    ((∃ v, (manifestation_probability_decimal p t prec ctx).1 = .ok v) ↔
      ¬ (p ≤ 0 ∨ t ≤ 0) ∧ ¬ (1 - p < 0 ∧ ¬ ∃ n : ℤ, t = (n : ℝ))) ∧
    (isDomainError (critical_point_for_probability q) ↔ ¬ (0 < q ∧ q < 1)) ∧
    ((∃ v, critical_point_for_probability q = .ok v) ↔ 0 < q ∧ q < 1) ∧
    (isDomainError (nothing_weight phi scenario) ↔
      phi ≤ 0 ∨ (scenario ≠ "growth" ∧ scenario ≠ "balanced" ∧ scenario ≠ "decay")) ∧
    ((∃ v, nothing_weight phi scenario = .ok v) ↔
      ¬ (phi ≤ 0 ∨ (scenario ≠ "growth" ∧ scenario ≠ "balanced" ∧
        scenario ≠ "decay"))) ∧
    (isDomainError (asymmetry phi) ↔ phi ≤ 0) ∧
    ((∃ v, asymmetry phi = .ok v) ↔ ¬ phi ≤ 0) ∧
    (isDomainError (structure_density td k rho0) ↔ k ≤ 0) ∧
    ((∃ v, structure_density td k rho0 = .ok v) ↔ ¬ k ≤ 0) := by
  refine ⟨?_, ?_, ?_, ?_, ?_, ?_, ?_, ?_, ?_, ?_, ?_, ?_, ?_⟩
  · by_cases h : p ≤ 0 ∨ t ≤ 0
    · rw [manifestation_probability, if_pos h]; simp [h]
    · rw [manifestation_probability, if_neg h]; simp [h]
  · by_cases h : p ≤ 0 ∨ t ≤ 0
    · rw [manifestation_probability, if_pos h]; simp [h]
    · rw [manifestation_probability, if_neg h]; simp [h]
  · by_cases h : p ≤ 0 ∨ t ≤ 0
    · rw [manifestation_probability_decimal, if_pos h]; simp [h]
    · rw [manifestation_probability_decimal, if_neg h, decimalPow]
      by_cases h2 : 1 - p < 0 ∧ ¬ ∃ n : ℤ, t = (n : ℝ)
      · rw [if_pos h2]; simp [h]
      · rw [if_neg h2]; simp [h]
  · by_cases h : p ≤ 0 ∨ t ≤ 0
    · rw [manifestation_probability_decimal, if_pos h]; simp [h]
    · rw [manifestation_probability_decimal, if_neg h, decimalPow]
      by_cases h2 : 1 - p < 0 ∧ ¬ ∃ n : ℤ, t = (n : ℝ)
      · rw [if_pos h2]; simp [h, h2]
      · rw [if_neg h2]
        push_neg at h2
        simp [h]
        intro hp
        exact h2 (by linarith)
  · by_cases h : p ≤ 0 ∨ t ≤ 0
    · rw [manifestation_probability_decimal, if_pos h]; simp [h]
    · rw [manifestation_probability_decimal, if_neg h, decimalPow]
      by_cases h2 : 1 - p < 0 ∧ ¬ ∃ n : ℤ, t = (n : ℝ)
      · rw [if_pos h2]; simp [h, h2]
      · rw [if_neg h2]
        push_neg at h2
        simp [h]
        intro hp
        exact h2 (by linarith)
  · by_cases h : 0 < q ∧ q < 1
    · rw [critical_point_for_probability, if_neg (not_not.mpr h)]; simp [h]
    · rw [critical_point_for_probability, if_pos h]; simp [h]
  · by_cases h : 0 < q ∧ q < 1
    · rw [critical_point_for_probability, if_neg (not_not.mpr h)]; simp [h]
    · rw [critical_point_for_probability, if_pos h]; simp [h]
  · by_cases hphi : phi ≤ 0
    · rw [nothing_weight, if_pos hphi]; simp [hphi]
    · rw [nothing_weight, if_neg hphi]
      by_cases hs1 : scenario = "growth"
      · rw [if_pos hs1]; simp [Except.map, hphi, hs1]
      · rw [if_neg hs1]
        by_cases hs2 : scenario = "balanced"
        · rw [if_pos hs2]; simp [Except.map, hphi, hs2]
        · rw [if_neg hs2]
          by_cases hs3 : scenario = "decay"
          · rw [if_pos hs3]; simp [Except.map, hphi, hs3]
          · rw [if_neg hs3]; simp [Except.map, hphi, hs1, hs2, hs3]
  · by_cases hphi : phi ≤ 0
    · rw [nothing_weight, if_pos hphi]; simp [hphi]
    · rw [nothing_weight, if_neg hphi]
      by_cases hs1 : scenario = "growth"
      · rw [if_pos hs1]; simp [Except.map, hphi, hs1]
      · rw [if_neg hs1]
        by_cases hs2 : scenario = "balanced"
        · rw [if_pos hs2]; simp [Except.map, hphi, hs2]
        · rw [if_neg hs2]
          by_cases hs3 : scenario = "decay"
          · rw [if_pos hs3]; simp [Except.map, hphi, hs3]
          · rw [if_neg hs3]; simp [Except.map, hphi, hs1, hs2, hs3]
  · by_cases hphi : phi ≤ 0
    · rw [asymmetry, if_pos hphi]; simp [hphi]
    · rw [asymmetry, if_neg hphi]; simp [hphi]
  · by_cases hphi : phi ≤ 0
    · rw [asymmetry, if_pos hphi]; simp [hphi]
    · rw [asymmetry, if_neg hphi]; simp [hphi]
  · by_cases hk : k ≤ 0
    · rw [structure_density, if_pos hk]; simp [hk]
    · rw [structure_density, if_neg hk]; simp [hk]
  · by_cases hk : k ≤ 0
    · rw [structure_density, if_pos hk]; simp [hk]
    · rw [structure_density, if_neg hk]; simp [hk]

lemma doubleRep_one : DoubleRep 1 :=
  ⟨1, 0, by norm_num, by norm_num, by norm_num, by norm_num⟩

/-- Any binary64-representable value other than `1.0` is at distance at least
`2^(-53)` (the spacing of binary64 just below `1`) from `1`. -/
lemma doubleRep_gap {d : ℝ} (hd : DoubleRep d) (hne : d ≠ 1) :
    (2:ℝ) ^ (-53 : ℤ) ≤ |d - 1| := by
  obtain ⟨m, e, hm, hlo, hhi, rfl⟩ := hd
  by_cases he : -53 ≤ e
  · have hnn : (0:ℤ) ≤ e + 53 := by linarith
    have h2 : ((2:ℤ) ^ (e + 53).toNat : ℝ) = (2:ℝ) ^ (e + 53) := by
      push_cast
      rw [← zpow_natCast (2:ℝ) (e + 53).toNat, Int.toNat_of_nonneg hnn]
    set k : ℤ := m * 2 ^ (e + 53).toNat - 2 ^ 53 with hkdef
    have hcast : (k : ℝ) * (2:ℝ) ^ (-53 : ℤ) = (m : ℝ) * 2 ^ e - 1 := by
      have e1 : (2:ℝ) ^ (e + 53) * (2:ℝ) ^ (-53 : ℤ) = (2:ℝ) ^ e := by
        rw [← zpow_add₀ (two_ne_zero : (2:ℝ) ≠ 0)]
        congr 1
        omega
      have e2 : ((2:ℤ) ^ (53:ℕ) : ℝ) * (2:ℝ) ^ (-53 : ℤ) = 1 := by
        push_cast
        rw [← zpow_natCast (2:ℝ) 53, ← zpow_add₀ (two_ne_zero : (2:ℝ) ≠ 0)]
        norm_num
      calc (k : ℝ) * (2:ℝ) ^ (-53:ℤ)
          = ((m : ℝ) * ((2:ℤ) ^ (e + 53).toNat : ℝ) - ((2:ℤ) ^ (53:ℕ) : ℝ)) *
              (2:ℝ) ^ (-53:ℤ) := by
            rw [hkdef]; push_cast; ring
        _ = (m : ℝ) * ((2:ℝ) ^ (e + 53) * (2:ℝ) ^ (-53:ℤ)) -
              ((2:ℤ) ^ (53:ℕ) : ℝ) * (2:ℝ) ^ (-53:ℤ) := by
            rw [h2]; ring
        _ = (m : ℝ) * 2 ^ e - 1 := by rw [e1, e2]
    have hk0 : k ≠ 0 := by
      intro h0
      apply hne
      have hz : (m : ℝ) * 2 ^ e - 1 = 0 := by rw [← hcast, h0]; simp
      linarith
    have h1k : (1:ℝ) ≤ |(k : ℝ)| := by
      rw [← Int.cast_abs]
      exact_mod_cast Int.one_le_abs hk0
    calc (2:ℝ) ^ (-53:ℤ) = 1 * (2:ℝ) ^ (-53:ℤ) := (one_mul _).symm
      _ ≤ |(k : ℝ)| * (2:ℝ) ^ (-53:ℤ) :=
          mul_le_mul_of_nonneg_right h1k (by positivity)
      _ = |(k : ℝ) * (2:ℝ) ^ (-53:ℤ)| := by
          rw [abs_mul, abs_of_pos (a := (2:ℝ) ^ (-53:ℤ)) (by positivity)]
      _ = |(m : ℝ) * 2 ^ e - 1| := by rw [hcast]
  · push_neg at he
    have hee : e ≤ -54 := by omega
    have habs : |(m : ℝ) * 2 ^ e| < 1/2 := by
      rw [abs_mul]
      have hm2 : |(m : ℝ)| < 2 ^ (53:ℕ) := by
        rw [← Int.cast_abs]; exact_mod_cast hm
      have hpe : |(2:ℝ) ^ e| = (2:ℝ) ^ e := abs_of_pos (zpow_pos (by norm_num) e)
      rw [hpe]
      have h2e : (2:ℝ) ^ e ≤ (2:ℝ) ^ (-54:ℤ) :=
        zpow_le_zpow_right₀ (by norm_num) hee
      calc |(m : ℝ)| * (2:ℝ) ^ e < 2 ^ (53:ℕ) * (2:ℝ) ^ e :=
            mul_lt_mul_of_pos_right hm2 (zpow_pos (by norm_num) e)
        _ ≤ 2 ^ (53:ℕ) * (2:ℝ) ^ (-54:ℤ) :=
            mul_le_mul_of_nonneg_left h2e (by positivity)
        _ = 1/2 := by
            rw [← zpow_natCast (2:ℝ) 53, ← zpow_add₀ (two_ne_zero : (2:ℝ) ≠ 0)]
            norm_num
    have h1 : (1:ℝ)/2 ≤ |(m : ℝ) * 2 ^ e - 1| := by
      have htri := abs_sub_abs_le_abs_sub (1:ℝ) ((m : ℝ) * 2 ^ e)
      rw [abs_one] at htri
      rw [abs_sub_comm]
      linarith
    have h53 : (2:ℝ) ^ (-53:ℤ) ≤ 1/2 := by
      calc (2:ℝ) ^ (-53:ℤ) ≤ (2:ℝ) ^ (-1:ℤ) :=
            zpow_le_zpow_right₀ (by norm_num) (by norm_num)
        _ = 1/2 := by norm_num
    exact le_trans h53 h1

lemma exp_hundred_gt : (2:ℝ) ^ (54:ℕ) < Real.exp 100 := by
  have h4 : (5:ℝ) ≤ Real.exp 4 := by linarith [Real.add_one_le_exp (4:ℝ)]
  have h100 : Real.exp 100 = Real.exp 4 ^ (25:ℕ) := by
    rw [← Real.exp_nat_mul]; norm_num
  have h5 : (5:ℝ) ^ (25:ℕ) ≤ Real.exp 4 ^ (25:ℕ) :=
    pow_le_pow_left₀ (by norm_num) h4 25
  have h25 : (2:ℝ) ^ (54:ℕ) < (5:ℝ) ^ (25:ℕ) := by norm_num
  rw [h100]; linarith

lemma exp_neg_hundred_lt : Real.exp (-100) < (2:ℝ) ^ (-54 : ℤ) := by
  rw [Real.exp_neg]
  have h : (2:ℝ) ^ (-54:ℤ) = ((2:ℝ) ^ (54:ℕ))⁻¹ := by
    rw [← zpow_natCast (2:ℝ) 54, ← zpow_neg]
    norm_num
  rw [h]
  exact inv_strictAnti₀ (by positivity) exp_hundred_gt

lemma manifestation_at_prod_100 {p t : ℝ} (hp : 0 < p) (ht : 0 < t)
    (hprod : t * p = 100) :
    manifestation_probability p t = .ok (1 - Real.exp (-100)) := by
  rw [manifestation_probability, if_neg (by push_neg; exact ⟨hp, ht⟩)]
  show Except.ok (min 1 (max 0 (-expm1 (-(t * p))))) = Except.ok (1 - Real.exp (-100))
  rw [hprod, expm1]
  have hpos : (0:ℝ) < 1 - Real.exp (-100) := by
    have h1 : Real.exp (-100) < 1 := Real.exp_lt_one_iff.mpr (by norm_num)
    linarith
  have hlt1 : 1 - Real.exp (-100) < 1 := by
    have := Real.exp_pos (-100); linarith
  rw [show -(Real.exp (-(100:ℝ)) - 1) = 1 - Real.exp (-100) from by ring]
  rw [max_eq_right hpos.le, min_eq_right hlt1.le]

/-- A real closer than half the binary64 spacing to `1` rounds to exactly `1.0`:
`1` is strictly nearer to it than any other representable value. -/
lemma rounds_to_one {v : ℝ} (hv : |v - 1| < (2:ℝ) ^ (-54 : ℤ)) :
    ∀ d, DoubleRep d → d ≠ 1 → |v - 1| < |v - d| := by
  intro d hd hne
  have hgap := doubleRep_gap hd hne
  have hadd : (2:ℝ) ^ (-53:ℤ) = 2 * (2:ℝ) ^ (-54:ℤ) := by
    have h := zpow_add₀ (two_ne_zero : (2:ℝ) ≠ 0) 1 (-54)
    norm_num at h
    rw [show (-53:ℤ) = 1 + -54 from by norm_num, zpow_add₀ (two_ne_zero : (2:ℝ) ≠ 0)]
    norm_num
  have htri : |d - 1| ≤ |v - d| + |v - 1| := by
    calc |d - 1| = |(d - v) + (v - 1)| := by ring_nf
      _ ≤ |d - v| + |v - 1| := abs_add _ _
      _ = |v - d| + |v - 1| := by rw [abs_sub_comm d v]
  linarith

/-- C8. Saturation at large products: at `(p, t) = (1e-20, 1e22)` and
`(1e-100, 1e102)` (both products equal `100` exactly), the computed value is
within half a unit in the last place of `1.0`, so it rounds to exactly the
binary64 value `1.0` — `1.0` is strictly nearer than every other representable
double — rather than being approximated below `1`. -/
theorem C8_saturation_exact_one :
    (∃ v, manifestation_probability 1e-20 1e22 = .ok v ∧ DoubleRep 1 ∧
      ∀ d, DoubleRep d → d ≠ 1 → |v - 1| < |v - d|) ∧
    (∃ v, manifestation_probability 1e-100 1e102 = .ok v ∧ DoubleRep 1 ∧
      ∀ d, DoubleRep d → d ≠ 1 → |v - 1| < |v - d|) := by
  have hv : |(1 - Real.exp (-100)) - 1| < (2:ℝ) ^ (-54:ℤ) := by
    rw [show (1 - Real.exp (-100)) - 1 = -Real.exp (-100) from by ring, abs_neg,
      abs_of_pos (Real.exp_pos _)]
    exact exp_neg_hundred_lt
  constructor
  · exact ⟨1 - Real.exp (-100),
      manifestation_at_prod_100 (by norm_num) (by norm_num) (by norm_num),
      doubleRep_one, rounds_to_one hv⟩
  · exact ⟨1 - Real.exp (-100),
      manifestation_at_prod_100 (by norm_num) (by norm_num) (by norm_num),
      doubleRep_one, rounds_to_one hv⟩

end FZVerifier
